import Mathlib

/-!
Shallow embedding of `src/k4ProjectTemplate/options/commonArgParsing.py`.

Python strings become `String`, `pathlib.Path` values become `String` with
`/` join, Python `dict` becomes an association list in insertion order where
`__setitem__` replaces the first matching key in place (as CPython dicts do)
and appends otherwise, and a failed `dict` lookup (`KeyError`, the spec's
`NotFoundError`) becomes `none`.  Floats in the source are exact decimal
literals, embedded as rationals.  `str.lower()` / `str.upper()` are embedded
as per-character ASCII case folding (all strings in the module are ASCII),
and Python string comparison (used by `sorted`) as lexicographic comparison
of code points.
-/

/-- Python `str.lower()` on the ASCII strings of this module. -/
def lowerString (s : String) : String := ⟨s.data.map Char.toLower⟩

/-- Python `str.upper()` on the ASCII strings of this module. -/
def upperString (s : String) : String := ⟨s.data.map Char.toUpper⟩

/-- Python string `<=` (lexicographic on code points) on character lists. -/
def charListLe : List Char → List Char → Bool
  | [], _ => true
  | _ :: _, [] => false
  | a :: as, b :: bs =>
    if a.toNat < b.toNat then true
    else if b.toNat < a.toNat then false
    else charListLe as bs

/-- Python string `<=`, as used by `sorted`. -/
def strLe (a b : String) : Bool := charListLe a.data b.data

/-- The ordering relation used by `sorted` on strings. -/
def strLeRel (a b : String) : Prop := strLe a b = true

instance : DecidableRel strLeRel := fun a b => Bool.decEq (strLe a b) true

/-- Embedding of the `HitCollection` frozen dataclass.  The second field is
named `plot_collection_prefix` in the source. -/
structure HitCollection where
  root_tree_branch_name : String
  plot_collection_pfx : String
  deriving DecidableEq

/-- Embedding of the `AcceleratorConfig` frozen dataclass. -/
structure AcceleratorConfig where
  name : String
  relative_compact_file_dir : String
  sim_crossing_angle_boost : ℚ
  deriving DecidableEq

/-- Embedding of the `DetectorModel` frozen dataclass. -/
structure DetectorModel where
  short_name : String
  long_name : String
  pub_name : String
  accelerator : AcceleratorConfig
  compact_path : String
  sub_detector_collections : List (String × HitCollection)
  deriving DecidableEq

/-- Embedding of `pathlib` `/` composition on relative paths. -/
def pathJoin (a b : String) : String := a ++ "/" ++ b

/-- Embedding of `DetectorModel.get_compact_file_path`. -/
def DetectorModel.get_compact_file_path (m : DetectorModel) : String :=
  pathJoin m.accelerator.relative_compact_file_dir m.compact_path

/-- Embedding of `DetectorModel.get_crossing_angle`. -/
def DetectorModel.get_crossing_angle (m : DetectorModel) : ℚ :=
  m.accelerator.sim_crossing_angle_boost

/-- Embedding of `DetectorModel.is_accelerator`. -/
def DetectorModel.is_accelerator (m : DetectorModel) (nm : String) : Bool :=
  lowerString m.accelerator.name == lowerString nm

/-- The two boolean attributes that `DetectorModel.get_name` reads from the
argparse namespace via `getattr(args, ..., False)`: the source attribute
names are `detname_long` and `detname_pub`. -/
structure Args where
  detname_long : Bool
  detname_pub : Bool
  deriving DecidableEq

/-- Embedding of `DetectorModel.get_name`: the long-name flag is tested
first, then the publication-name flag, else the short name is returned. -/
def DetectorModel.get_name (m : DetectorModel) (a : Args) : String :=
  if a.detname_long then m.long_name
  else if a.detname_pub then m.pub_name
  else m.short_name

/-- Python `dict.__setitem__` on an association list kept in insertion
order: replace the first binding of the key in place, else append. -/
def dictSet : List (String × α) → String → α → List (String × α)
  | [], k, v => [(k, v)]
  | p :: rest, k, v => if p.1 = k then (k, v) :: rest else p :: dictSet rest k v

/-- Python `dict.__getitem__`; `none` is the `KeyError` outcome. -/
def dictGet : List (String × α) → String → Option α
  | [], _ => none
  | p :: rest, k => if p.1 = k then some p.2 else dictGet rest k

/-- Python `dict.values()` in insertion order. -/
def dictValues (d : List (String × α)) : List α := d.map Prod.snd

/-- The state of a `DetectorModelRegistry`: its `_models` dict. -/
abbrev Registry := List (String × DetectorModel)

/-- A freshly constructed `DetectorModelRegistry`. -/
def emptyRegistry : Registry := []

/-- Embedding of `DetectorModelRegistry.register`: every alias of the model
(short, long and publication name) is lower-cased and bound to the model.
The source iterates over the set of the three names; since all writes carry
the same value the iteration order is immaterial. -/
def DetectorModelRegistry.register (d : Registry) (m : DetectorModel) : Registry :=
  dictSet (dictSet (dictSet d (lowerString m.short_name) m) (lowerString m.long_name) m)
    (lowerString m.pub_name) m

/-- Embedding of `DetectorModelRegistry.get`: lower-case the key and look it
up; `none` is the `KeyError` (`NotFoundError`) outcome. -/
def DetectorModelRegistry.get (d : Registry) (k : String) : Option DetectorModel :=
  dictGet d (lowerString k)

/-- Embedding of `DetectorModelRegistry.list_keys`:
`sorted(set(m.short_name for m in self._models.values()))`. -/
def DetectorModelRegistry.list_keys (d : Registry) : List String :=
  List.insertionSort strLeRel ((dictValues d).map DetectorModel.short_name).dedup

/-- Embedding of `DetectorModelRegistry.list_all_keys`:
`sorted(set(self._models.keys()))`. -/
def DetectorModelRegistry.list_all_keys (d : Registry) : List String :=
  List.insertionSort strLeRel (d.map Prod.fst).dedup

/-- Registering a list of models in order (the module-level
`registry.register(...)` calls). -/
def registerAll (d : Registry) (l : List DetectorModel) : Registry :=
  l.foldl DetectorModelRegistry.register d

/-- The three lower-cased aliases a model gets bound under. -/
def aliasKeys (m : DetectorModel) : List String :=
  [lowerString m.short_name, lowerString m.long_name, lowerString m.pub_name]

/-- Two models have case-insensitively disjoint alias sets. -/
def disjointAliases (m₁ m₂ : DetectorModel) : Prop :=
  ∀ k ∈ aliasKeys m₁, k ∉ aliasKeys m₂

instance : DecidableRel disjointAliases := fun m₁ _ =>
  List.decidableBAll _ (aliasKeys m₁)

-- Module-level registry setup data.

/-- Embedding of `FCC_dir = Path("FCCee") / "ILD_FCCee" / "compact"`. -/
def FCC_dir : String := pathJoin (pathJoin "FCCee" "ILD_FCCee") "compact"

/-- Embedding of `ILC_dir = Path("ILD") / "compact" / "ILD_sl5_v02"`. -/
def ILC_dir : String := pathJoin (pathJoin "ILD" "compact") "ILD_sl5_v02"

/-- The `accelerators["FCCee"]` entry; `15.0e-3` is the rational `3/200`. -/
def accFCCee : AcceleratorConfig := ⟨"FCCee", FCC_dir, ⟨3, 200, by decide, by decide⟩⟩

/-- The `accelerators["ILC"]` entry; `7.0e-3` is the rational `7/1000`. -/
def accILC : AcceleratorConfig := ⟨"ILC", ILC_dir, ⟨7, 1000, by decide, by decide⟩⟩

/-- Embedding of `sub_det_cols_fcc`. -/
def sub_det_cols_fcc : List (String × HitCollection) :=
  [("vb", ⟨"VertexBarrelCollection", "Vertex Barrel"⟩),
   ("ve", ⟨"VertexEndcapCollection", "Vertex Endcap"⟩)]

/-- Embedding of `sub_det_cols_ilc`. -/
def sub_det_cols_ilc : List (String × HitCollection) :=
  [("vb", ⟨"VXDCollection", "Vertex"⟩),
   ("f", ⟨"FTDCollection", "Forward"⟩)]

/-- The first registered model (`"if1"`). -/
def modelIf1 : DetectorModel :=
  ⟨"if1", "FCC01", "ILD_FCCee_v01", accFCCee,
   "ILD_FCCee_v01/ILD_FCCee_v01.xml", sub_det_cols_fcc⟩

/-- The second registered model (`"if2"`). -/
def modelIf2 : DetectorModel :=
  ⟨"if2", "FCC02", "ILD_FCCee_v02", accFCCee,
   "ILD_FCCee_v02/ILD_FCCee_v02.xml", sub_det_cols_fcc⟩

/-- The third registered model (`"v02"`). -/
def modelV02 : DetectorModel :=
  ⟨"v02", "ILC02", "ILD_l5_v02", accILC, "ILD_l5_v02.xml", sub_det_cols_ilc⟩

/-- The fourth registered model (`"v03"`). -/
def modelV03 : DetectorModel :=
  ⟨"v03", "ILC03", "ILD_l5_v03", accILC, "ILD_l5_v03.xml", sub_det_cols_ilc⟩

/-- The fifth registered model (`"v05"`). -/
def modelV05 : DetectorModel :=
  ⟨"v05", "ILC05", "ILD_l5_v05", accILC, "ILD_l5_v05.xml", sub_det_cols_ilc⟩

/-- A model used to exhibit the alias-conflict behaviour of `register`; its
short name collides with `modelConflictB`. -/
def modelConflictA : DetectorModel := ⟨"dup", "AAA", "PA", accILC, "a.xml", []⟩

/-- A second model whose short name collides with `modelConflictA` while the
models differ. -/
def modelConflictB : DetectorModel := ⟨"dup", "BBB", "PB", accILC, "b.xml", []⟩

/-- The five models registered at module level, in source order. -/
def registeredModels : List DetectorModel :=
  [modelIf1, modelIf2, modelV02, modelV03, modelV05]

/-- The module-level `registry` after the five `register` calls. -/
def registry : Registry := registerAll emptyRegistry registeredModels

/-- The `--detectorModels` argument as declared in `add_common_args`:
its `choices`, `default` and `nargs="*"` (zero or more values). -/
structure DetectorModelsArg where
  choices : List String
  default : List String
  nargs_zero_or_more : Bool
  deriving DecidableEq

/-- The `parser.add_argument("--detectorModels", ...)` call in
`add_common_args`: choices are `registry.list_keys()` plus their upper-cased
forms, default `["v02"]`, `nargs="*"`. -/
def detectorModelsArg : DetectorModelsArg :=
  ⟨DetectorModelRegistry.list_keys registry
     ++ (DetectorModelRegistry.list_keys registry).map upperString,
   ["v02"], true⟩

/-- The observable shape of `add_common_args`: the `--detectorModels`
argument, that `--version` is required, and that the two detector-name flags
are placed in a mutually exclusive group. -/
structure CommonArgs where
  detectorModels : DetectorModelsArg
  version_required : Bool
  name_flags_mutually_exclusive : Bool

/-- Embedding of `add_common_args`. -/
def add_common_args : CommonArgs := ⟨detectorModelsArg, true, true⟩

/-- `CaseInsensitiveDict.__getitem__`: lower-cases the key before lookup. -/
def CaseInsensitiveDict.getItem (d : List (String × String)) (k : String) : Option String :=
  dictGet d (lowerString k)

/-- `CaseInsensitiveDict.__setitem__`: lower-cases the key before writing. -/
def CaseInsensitiveDict.setItem (d : List (String × String)) (k : String) (v : String) :
    List (String × String) :=
  dictSet d (lowerString k) v

/-- The inherited `dict.__contains__` used by `in`: no case folding, since
`CaseInsensitiveDict` does not override it. -/
def CaseInsensitiveDict.containsRaw (d : List (String × String)) (k : String) : Bool :=
  (dictGet d k).isSome

/-- Embedding of `detModNames`: the short names mapped to themselves.  The
`dict` constructor stores the keys as given (it bypasses the overridden
`__setitem__`); they are the short names exactly as `list_keys` returns
them. -/
def detModNames : List (String × String) :=
  (DetectorModelRegistry.list_keys registry).map (fun s => (s, s))

/-! ### Properties of the embedded dict operations -/

theorem char_toNat_inj {a b : Char} (h : a.toNat = b.toNat) : a = b := by
  apply Char.eq_of_val_eq
  exact UInt32.eq_of_val_eq (Fin.ext h)

theorem charListLe_total : ∀ as bs, charListLe as bs = true ∨ charListLe bs as = true := by
  intro as
  induction as with
  | nil => intro bs; left; rfl
  | cons a as ih =>
    intro bs
    cases bs with
    | nil => right; rfl
    | cons b bs =>
      simp only [charListLe]
      rcases Nat.lt_trichotomy a.toNat b.toNat with h | h | h
      · left
        simp [h, Nat.lt_asymm h]
      · rcases ih bs with h₂ | h₂ <;>
          simp [h, Nat.lt_irrefl, h₂]
      · right
        simp [h, Nat.lt_asymm h]

theorem charListLe_trans :
    ∀ as bs cs, charListLe as bs = true → charListLe bs cs = true →
      charListLe as cs = true := by
  intro as
  induction as with
  | nil => intro bs cs _ _; rfl
  | cons a as ih =>
    intro bs cs h₁ h₂
    cases bs with
    | nil => simp [charListLe] at h₁
    | cons b bs =>
      cases cs with
      | nil => simp [charListLe] at h₂
      | cons c cs =>
        simp only [charListLe] at h₁ h₂ ⊢
        split_ifs at h₁ h₂ ⊢ <;>
          first
            | rfl
            | omega
            | (exact ih bs cs h₁ h₂)

theorem charListLe_antisymm :
    ∀ as bs, charListLe as bs = true → charListLe bs as = true → as = bs := by
  intro as
  induction as with
  | nil =>
    intro bs h₁ h₂
    cases bs with
    | nil => rfl
    | cons b bs => simp [charListLe] at h₂
  | cons a as ih =>
    intro bs h₁ h₂
    cases bs with
    | nil => simp [charListLe] at h₁
    | cons b bs =>
      simp only [charListLe] at h₁ h₂
      split_ifs at h₁ h₂ with hab hba <;> try omega
      have hn : a.toNat = b.toNat := by omega
      rw [char_toNat_inj hn, ih bs h₁ h₂]

instance : IsTotal String strLeRel :=
  ⟨fun a b => charListLe_total a.data b.data⟩

instance : IsTrans String strLeRel :=
  ⟨fun a b c => charListLe_trans a.data b.data c.data⟩

instance : IsAntisymm String strLeRel :=
  ⟨fun a b h₁ h₂ => by
    cases a with
    | mk as =>
      cases b with
      | mk bs => exact congrArg String.mk (charListLe_antisymm as bs h₁ h₂)⟩

theorem dictGet_dictSet (d : List (String × α)) (k k₂ : String) (v : α) :
    dictGet (dictSet d k v) k₂ = if k = k₂ then some v else dictGet d k₂ := by
  induction d with
  | nil => simp [dictSet, dictGet]
  | cons p rest ih =>
    by_cases h₁ : p.1 = k
    · by_cases h₂ : k = k₂
      · simp [dictSet, dictGet, h₁, h₂]
      · have h₃ : ¬p.1 = k₂ := fun h => h₂ (h₁.symm.trans h)
        simp [dictSet, dictGet, h₁, h₂, h₃]
    · by_cases h₂ : p.1 = k₂
      · have h₃ : ¬k = k₂ := fun h => h₁ (h₂.trans h.symm)
        have h₄ : ¬k₂ = k := fun h => h₁ (h₂.trans h)
        simp [dictSet, dictGet, h₁, h₂, h₃, h₄]
      · simp [dictSet, dictGet, h₁, h₂, ih]

theorem mem_dictValues_dictSet {d : List (String × α)} {k : String} {v x : α}
    (h : x ∈ dictValues (dictSet d k v)) : x = v ∨ x ∈ dictValues d := by
  induction d with
  | nil => simpa [dictSet, dictValues] using h
  | cons p rest ih =>
    simp only [dictSet] at h
    split_ifs at h with h₁
    · simp only [dictValues, List.map_cons, List.mem_cons] at h ⊢
      tauto
    · simp only [dictValues, List.map_cons, List.mem_cons] at h ⊢
      rcases h with h | h
      · tauto
      · rcases ih h with h | h <;> tauto

theorem mem_dictValues_of_dictGet {d : List (String × α)} {k : String} {v : α}
    (h : dictGet d k = some v) : v ∈ dictValues d := by
  induction d with
  | nil => simp [dictGet] at h
  | cons p rest ih =>
    simp only [dictGet] at h
    simp only [dictValues, List.map_cons, List.mem_cons]
    split_ifs at h with h₁
    · exact Or.inl (Option.some_inj.mp h).symm
    · exact Or.inr (ih h)

theorem dictGet_eq_none {d : List (String × α)} {k : String}
    (h : ∀ p ∈ d, p.1 ≠ k) : dictGet d k = none := by
  induction d with
  | nil => rfl
  | cons p rest ih =>
    simp only [dictGet, h p (List.mem_cons_self p rest), if_neg, not_false_iff]
    exact ih fun q hq => h q (List.mem_cons_of_mem p hq)

/-! ### Properties of registration -/

theorem register_dictGet_alias (d : Registry) (m : DetectorModel) (k : String)
    (hk : k ∈ aliasKeys m) :
    dictGet (DetectorModelRegistry.register d m) k = some m := by
  simp only [DetectorModelRegistry.register, dictGet_dictSet]
  simp only [aliasKeys, List.mem_cons, List.mem_singleton] at hk
  split_ifs <;> first | rfl | tauto

theorem register_dictGet_not_alias (d : Registry) (m : DetectorModel) (k : String)
    (hk : k ∉ aliasKeys m) :
    dictGet (DetectorModelRegistry.register d m) k = dictGet d k := by
  have h₁ : ¬lowerString m.short_name = k := fun h => hk (by simp [aliasKeys, h])
  have h₂ : ¬lowerString m.long_name = k := fun h => hk (by simp [aliasKeys, h])
  have h₃ : ¬lowerString m.pub_name = k := fun h => hk (by simp [aliasKeys, h])
  simp only [DetectorModelRegistry.register, dictGet_dictSet,
    if_neg h₁, if_neg h₂, if_neg h₃]

theorem mem_dictValues_register {d : Registry} {m x : DetectorModel}
    (h : x ∈ dictValues (DetectorModelRegistry.register d m)) :
    x = m ∨ x ∈ dictValues d := by
  simp only [DetectorModelRegistry.register] at h
  rcases mem_dictValues_dictSet h with h | h
  · exact Or.inl h
  rcases mem_dictValues_dictSet h with h | h
  · exact Or.inl h
  rcases mem_dictValues_dictSet h with h | h
  · exact Or.inl h
  · exact Or.inr h

theorem registerAll_cons (d : Registry) (m : DetectorModel) (l : List DetectorModel) :
    registerAll d (m :: l) = registerAll (DetectorModelRegistry.register d m) l := rfl

theorem registerAll_dictGet_untouched (l : List DetectorModel) (d : Registry) (k : String)
    (h : ∀ m ∈ l, k ∉ aliasKeys m) :
    dictGet (registerAll d l) k = dictGet d k := by
  induction l generalizing d with
  | nil => rfl
  | cons m rest ih =>
    rw [registerAll_cons,
      ih (DetectorModelRegistry.register d m) fun m' hm' => h m' (List.mem_cons_of_mem m hm')]
    exact register_dictGet_not_alias d m k (h m (List.mem_cons_self m rest))

theorem registerAll_dictGet_alias (l : List DetectorModel) (d : Registry)
    (m : DetectorModel) (k : String) (hm : m ∈ l) (hk : k ∈ aliasKeys m)
    (hd : l.Pairwise disjointAliases) :
    dictGet (registerAll d l) k = some m := by
  induction l generalizing d with
  | nil => cases hm
  | cons m₀ rest ih =>
    rcases List.mem_cons.mp hm with rfl | hm'
    · rw [registerAll_cons]
      have hrest : ∀ m' ∈ rest, k ∉ aliasKeys m' := fun m' hm' =>
        (List.pairwise_cons.mp hd).1 m' hm' k hk
      rw [registerAll_dictGet_untouched rest _ k hrest]
      exact register_dictGet_alias d m k hk
    · rw [registerAll_cons]
      apply ih <;> first | exact hm' | exact (List.pairwise_cons.mp hd).2

theorem mem_dictValues_registerAll {l : List DetectorModel} {d : Registry}
    {x : DetectorModel} (h : x ∈ dictValues (registerAll d l)) :
    x ∈ dictValues d ∨ x ∈ l := by
  induction l generalizing d with
  | nil => exact Or.inl h
  | cons m rest ih =>
    rw [registerAll_cons] at h
    rcases ih h with h | h
    · rcases mem_dictValues_register h with h | h
      · exact Or.inr (h ▸ List.mem_cons_self m rest)
      · exact Or.inl h
    · exact Or.inr (List.mem_cons_of_mem m h)

theorem mem_dictValues_registerAll_of_mem {l : List DetectorModel} {m : DetectorModel}
    (hm : m ∈ l) (hd : l.Pairwise disjointAliases) :
    m ∈ dictValues (registerAll emptyRegistry l) := by
  have hk : lowerString m.short_name ∈ aliasKeys m := by
    simp [aliasKeys]
  exact mem_dictValues_of_dictGet
    (registerAll_dictGet_alias l emptyRegistry m (lowerString m.short_name) hm hk hd)

theorem disjointAliases_symmetric :
    ∀ {m₁ m₂ : DetectorModel}, disjointAliases m₁ m₂ → disjointAliases m₂ m₁ :=
  fun h k hk₂ hk₁ => h k hk₁ hk₂

/-! ### Properties of list_keys -/

theorem mem_list_keys_iff {l : List DetectorModel} (hd : l.Pairwise disjointAliases)
    (x : String) :
    x ∈ DetectorModelRegistry.list_keys (registerAll emptyRegistry l) ↔
      x ∈ l.map DetectorModel.short_name := by
  unfold DetectorModelRegistry.list_keys
  rw [(List.perm_insertionSort strLeRel _).mem_iff, List.mem_dedup, List.mem_map,
    List.mem_map]
  constructor
  · rintro ⟨m, hm, rfl⟩
    rcases mem_dictValues_registerAll hm with h | h
    · cases h
    · exact ⟨m, h, rfl⟩
  · rintro ⟨m, hm, rfl⟩
    exact ⟨m, mem_dictValues_registerAll_of_mem hm hd, rfl⟩

theorem list_keys_sorted (d : Registry) :
    (DetectorModelRegistry.list_keys d).Sorted strLeRel :=
  List.sorted_insertionSort strLeRel _

theorem list_keys_nodup (d : Registry) :
    (DetectorModelRegistry.list_keys d).Nodup :=
  ((List.perm_insertionSort strLeRel _).nodup_iff).mpr (List.nodup_dedup _)

/-! ### Claims -/

/-- Claim C1: for every model registered in a `DetectorModelRegistry`, and
for each of the model's three aliases (short, long and publication name),
`get` returns that same model for every case variation of the alias,
provided the aliases of the registered models are case-insensitively unique
across models. -/
theorem get_resolves_every_alias (l : List DetectorModel) (m : DetectorModel)
    (a k : String) (hd : l.Pairwise disjointAliases) (hm : m ∈ l)
    (ha : a = m.short_name ∨ a = m.long_name ∨ a = m.pub_name)
    (hk : lowerString k = lowerString a) :
    DetectorModelRegistry.get (registerAll emptyRegistry l) k = some m := by
  have hka : lowerString a ∈ aliasKeys m := by
    rcases ha with rfl | rfl | rfl <;> simp [aliasKeys]
  rw [DetectorModelRegistry.get, hk]
  exact registerAll_dictGet_alias l emptyRegistry m (lowerString a) hm hka hd

/-- Witness for claim C1: the mixed-case variation `"Ilc02"` of the long
name of the `"v02"` model resolves to that model in the module registry. -/
theorem get_resolves_every_alias_witness :
    DetectorModelRegistry.get registry "Ilc02" = some modelV02 :=
  get_resolves_every_alias registeredModels modelV02 "ILC02" "Ilc02"
    (by decide) (by decide) (by decide) (by decide)

/-- Claim C2 counterexample: registering a model whose short name is already
bound to a different model does not fail (there is no `ConflictError`
anywhere in the code); the binding is silently overwritten. -/
theorem register_conflict_counterexample :
    DetectorModelRegistry.get
        (DetectorModelRegistry.register emptyRegistry modelConflictA) "dup"
      = some modelConflictA ∧
    DetectorModelRegistry.get
        (DetectorModelRegistry.register
          (DetectorModelRegistry.register emptyRegistry modelConflictA) modelConflictB) "dup"
      = some modelConflictB ∧
    modelConflictA ≠ modelConflictB := by decide

/-- Claim C2 (amended): `register` never fails; it unconditionally rebinds
every lower-cased alias of its argument model, silently overwriting any
existing binding for that alias, even one bound to a different model. -/
theorem register_silently_rebinds (d : Registry) (m : DetectorModel) (k : String)
    (hk : k ∈ aliasKeys m) :
    dictGet (DetectorModelRegistry.register d m) k = some m :=
  register_dictGet_alias d m k hk

/-- Witness for the amended claim C2: rebinding the conflicting alias
`"dup"` over an existing different binding yields the new model. -/
theorem register_silently_rebinds_witness :
    dictGet
        (DetectorModelRegistry.register
          (DetectorModelRegistry.register emptyRegistry modelConflictA) modelConflictB)
        "dup"
      = some modelConflictB :=
  register_silently_rebinds
    (DetectorModelRegistry.register emptyRegistry modelConflictA) modelConflictB "dup"
    (by decide)

/-- Claim C3 counterexample: with both display-form flags set on the args
object, `get_name` does not fail with any error: it silently returns the
long name. -/
theorem get_name_both_flags_counterexample :
    DetectorModel.get_name modelV02 ⟨true, true⟩ = "ILC02" := by decide

/-- Claim C3 (amended): requesting both display forms simultaneously is
rejected at the CLI level by the mutually exclusive argparse group, but
`get_name` itself raises no error for an args object carrying both flags:
the long-name selection silently takes precedence (the code defines no
`InvalidSelectionError`). -/
theorem get_name_both_flags_amended (m : DetectorModel) (a : Args)
    (h₁ : a.detname_long = true) (h₂ : a.detname_pub = true) :
    DetectorModel.get_name m a = m.long_name ∧
      add_common_args.name_flags_mutually_exclusive = true :=
  ⟨by simp [DetectorModel.get_name, h₁], rfl⟩

/-- Witness for the amended claim C3 at the `"if2"` model. -/
theorem get_name_both_flags_amended_witness :
    DetectorModel.get_name modelIf2 ⟨true, true⟩ = modelIf2.long_name ∧
      add_common_args.name_flags_mutually_exclusive = true :=
  get_name_both_flags_amended modelIf2 ⟨true, true⟩ rfl rfl

/-- Claim C4: `get_name` returns `short_name` when neither display form is
selected, `long_name` when the long form alone is selected, and `pub_name`
when the publication form alone is selected. -/
theorem get_name_selection (m : DetectorModel) :
    DetectorModel.get_name m ⟨false, false⟩ = m.short_name ∧
    DetectorModel.get_name m ⟨true, false⟩ = m.long_name ∧
    DetectorModel.get_name m ⟨false, true⟩ = m.pub_name :=
  ⟨rfl, rfl, rfl⟩

/-- Claim C5: looking up a key that matches no registered alias, such as
`"nope"`, fails (the `KeyError` / `NotFoundError` outcome, embedded as
`none`). -/
theorem get_unknown_key_not_found :
    DetectorModelRegistry.get registry "nope" = none := by decide

/-- Claim C6: `list_keys` returns exactly the set of short names of the
registered models, sorted and without duplicates, and its result does not
depend on the registration order (given case-insensitively unique aliases
across models, the spec's registry invariant). -/
theorem list_keys_short_names (l₁ l₂ : List DetectorModel)
    (hd : l₁.Pairwise disjointAliases) (hp : l₁.Perm l₂) :
    DetectorModelRegistry.list_keys (registerAll emptyRegistry l₁)
      = DetectorModelRegistry.list_keys (registerAll emptyRegistry l₂) ∧
    (DetectorModelRegistry.list_keys (registerAll emptyRegistry l₁)).Sorted strLeRel ∧
    (DetectorModelRegistry.list_keys (registerAll emptyRegistry l₁)).Nodup ∧
    ∀ x, x ∈ DetectorModelRegistry.list_keys (registerAll emptyRegistry l₁) ↔
      x ∈ l₁.map DetectorModel.short_name := by
  have hd₂ : l₂.Pairwise disjointAliases :=
    (hp.pairwise_iff fun h => disjointAliases_symmetric h).mp hd
  refine ⟨?_, list_keys_sorted _, list_keys_nodup _, mem_list_keys_iff hd⟩
  have hmem : ∀ x, x ∈ DetectorModelRegistry.list_keys (registerAll emptyRegistry l₁) ↔
      x ∈ DetectorModelRegistry.list_keys (registerAll emptyRegistry l₂) := fun x =>
    (mem_list_keys_iff hd x).trans
      ((hp.map DetectorModel.short_name).mem_iff.trans (mem_list_keys_iff hd₂ x).symm)
  have hperm := (List.perm_ext_iff_of_nodup (list_keys_nodup _) (list_keys_nodup _)).mpr hmem
  exact List.eq_of_perm_of_sorted hperm (list_keys_sorted _) (list_keys_sorted _)

/-- Witness for claim C6: registering the five module models in reverse
order yields the same `list_keys` result. -/
theorem list_keys_short_names_witness :
    DetectorModelRegistry.list_keys (registerAll emptyRegistry registeredModels)
      = DetectorModelRegistry.list_keys (registerAll emptyRegistry registeredModels.reverse) :=
  (list_keys_short_names registeredModels registeredModels.reverse (by decide)
    (List.reverse_perm registeredModels).symm).1

/-- Claim C7: the compact file path of the model registered under `"v02"`
is the ILC base directory `ILD/compact/ILD_sl5_v02` joined with
`ILD_l5_v02.xml`; the computation is pure path composition. -/
theorem v02_compact_file_path :
    DetectorModelRegistry.get registry "v02" = some modelV02 ∧
    DetectorModel.get_compact_file_path modelV02 = pathJoin ILC_dir "ILD_l5_v02.xml" :=
  ⟨by decide, rfl⟩

/-- Claim C8: the `--detectorModels` option takes zero or more values,
defaults to `["v02"]`, and its choices are the registry's canonical short
names in both their stored (lower) case and upper case. -/
theorem detector_models_arg_shape :
    detectorModelsArg.choices
      = ["if1", "if2", "v02", "v03", "v05", "IF1", "IF2", "V02", "V03", "V05"] ∧
    detectorModelsArg.default = ["v02"] ∧
    detectorModelsArg.nargs_zero_or_more = true := by decide

/-- Claim C9: when both the long-name flag and the publication-name flag
are set on the args object, `get_name` returns the long name — the
long-name selection takes precedence and no error is raised. -/
theorem get_name_long_precedence (m : DetectorModel) (a : Args)
    (h₁ : a.detname_long = true) (h₂ : a.detname_pub = true) :
    DetectorModel.get_name m a = m.long_name := by
  simp [DetectorModel.get_name, h₁]

/-- Witness for claim C9 at the `"v03"` model. -/
theorem get_name_long_precedence_witness :
    DetectorModel.get_name modelV03 ⟨true, true⟩ = modelV03.long_name :=
  get_name_long_precedence modelV03 ⟨true, true⟩ rfl rfl

/-- Claim C10: for every short name stored in `detModNames`, item access is
case-insensitive and returns the lower-case canonical short name, while the
inherited membership test is not case-insensitive: it is `false` for every
non-lower-case variant of the key, since `CaseInsensitiveDict` folds case in
`__getitem__` and `__setitem__` but not in `__contains__`. -/
theorem detModNames_getitem_vs_contains (k v : String)
    (hk : k ∈ DetectorModelRegistry.list_keys registry) (hv : lowerString v = k) :
    CaseInsensitiveDict.getItem detModNames v = some k ∧
    lowerString k = k ∧
    (v ≠ k → CaseInsensitiveDict.containsRaw detModNames v = false) := by
  have hlow : ∀ p ∈ detModNames, lowerString p.1 = p.1 := by decide
  have hget : ∀ x ∈ DetectorModelRegistry.list_keys registry,
      dictGet detModNames x = some x := by decide
  have hklow : ∀ x ∈ DetectorModelRegistry.list_keys registry, lowerString x = x := by decide
  refine ⟨?_, hklow k hk, ?_⟩
  · rw [CaseInsensitiveDict.getItem, hv]
    exact hget k hk
  · intro hne
    have hnone : dictGet detModNames v = none := by
      apply dictGet_eq_none
      intro p hp heq
      have h₁ : lowerString p.1 = p.1 := hlow p hp
      rw [heq] at h₁
      exact hne (h₁.symm.trans hv)
    rw [CaseInsensitiveDict.containsRaw, hnone]
    rfl

/-- Witness for claim C10: `"V02"` is retrievable by item access but fails
the membership test. -/
theorem detModNames_getitem_vs_contains_witness :
    CaseInsensitiveDict.getItem detModNames "V02" = some "v02" ∧
    CaseInsensitiveDict.containsRaw detModNames "V02" = false :=
  ⟨(detModNames_getitem_vs_contains "v02" "V02" (by decide) (by decide)).1,
   (detModNames_getitem_vs_contains "v02" "V02" (by decide) (by decide)).2.2 (by decide)⟩
